import Mathlib

/-
Verification of the quantitative calculation core of the monte-canvas
repository against its specification.

Modelling conventions
---------------------
The TypeScript sources compute over IEEE-754 doubles; this development
idealises them over the reals.  Lean's conventions `x / 0 = 0` and
`Real.sqrt x = 0` for `x < 0` differ from the JavaScript results
(`Infinity`/`NaN`); wherever a claim hinges on the IEEE behaviour of a
division by zero, that single division is modelled explicitly by `jsDivFinite`
over the four-constructor type `JsNum` (finite value, both infinities, NaN),
mirroring the IEEE rule for dividing a finite double by +0.

The sources draw randomness from the ambient `Math.random()`; following the
spec's "explicit RNG injection" note, every simulation entry point takes the
random draws as explicit stream arguments (one stream per kind of draw),
so that each simulated day reads its shock(s) from the stream.

JavaScript's in-place `sort((a, b) => a - b)` is modelled by
`List.insertionSort (· ≤ ·)`: both produce the unique ascending reordering.
-/

namespace MonteCanvas

/-- Ascending sort, the model of JavaScript `arr.sort((a, b) => a - b)`. -/
noncomputable def sortAsc (l : List ℝ) : List ℝ :=
  List.insertionSort (· ≤ ·) l

/-- Arithmetic mean used throughout the statistics code: `sum / length`. -/
noncomputable def listMean (l : List ℝ) : ℝ :=
  l.sum / l.length

/-- `Math.max(...xs)` over a nonempty spread (the empty case, `-Infinity`
in JavaScript, is never exercised by the claims). -/
noncomputable def listMax : List ℝ → ℝ
  | [] => 0
  | x :: xs => xs.foldl max x

/-- `Math.min(...xs)` over a nonempty spread. -/
noncomputable def listMin : List ℝ → ℝ
  | [] => 0
  | x :: xs => xs.foldl min x

/-- IEEE result of dividing the finite double `x` by the finite double `y`
when `y` may be (positive) zero: `0/0` is NaN, `x/0` is a signed infinity. -/
inductive JsNum where
  | val (x : ℝ)
  | posInf
  | negInf
  | nan

noncomputable def jsDivFinite (x y : ℝ) : JsNum :=
  if y = 0 then
    if x = 0 then JsNum.nan else if 0 < x then JsNum.posInf else JsNum.negInf
  else JsNum.val (x / y)

namespace MonteCarlo

/- ------------------------------------------------------------------
src/lib/monteCarlo.ts
------------------------------------------------------------------ -/

structure SimulationParams where
  currentPrice : ℝ
  expectedReturn : ℝ
  volatility : ℝ
  timeHorizon : ℕ
  numSimulations : ℕ

structure SimulationStatistics where
  averageEndingPrice : ℝ
  probabilityOfGain : ℝ
  percentile5 : ℝ
  percentile95 : ℝ
  maxPrice : ℝ
  minPrice : ℝ

structure SimulationResults where
  paths : List (List ℝ)
  finalPrices : List ℝ
  statistics : SimulationStatistics

/-- `const drift = (expectedReturn - 0.5 * volatility * volatility) * dt`
with `dt = 1 / 252`. -/
noncomputable def drift (p : SimulationParams) : ℝ :=
  (p.expectedReturn - 0.5 * p.volatility * p.volatility) * (1 / 252)

/-- `const diffusion = volatility * Math.sqrt(dt)`. -/
noncomputable def diffusion (p : SimulationParams) : ℝ :=
  p.volatility * Real.sqrt (1 / 252)

/-- Price after `d` days of the inner loop
`price = price * Math.exp(drift + diffusion * randomShock)`, where
`Z d` is the standard-normal draw consumed on day `d`. -/
noncomputable def gbmPrice (p : SimulationParams) (Z : ℕ → ℝ) : ℕ → ℝ
  | 0 => p.currentPrice
  | d + 1 => gbmPrice p Z d * Real.exp (drift p + diffusion p * Z (d + 1))

/-- The path array built by one simulation:
`[currentPrice, price₁, …, price_timeHorizon]`. -/
noncomputable def simPath (p : SimulationParams) (Z : ℕ → ℝ) : List ℝ :=
  (List.range (p.timeHorizon + 1)).map (gbmPrice p Z)

/-- The `finalPrices` array as pushed by the simulation loop, before the
in-place sort: entry `s` is the terminal price of path `s`. -/
noncomputable def finalPricesRaw (p : SimulationParams) (Z : ℕ → ℕ → ℝ) : List ℝ :=
  (List.range p.numSimulations).map (fun s => gbmPrice p (Z s) p.timeHorizon)

/-- `runMonteCarloSimulation` (src/lib/monteCarlo.ts, lines 39-88): generate
`numSimulations` GBM paths, sort `finalPrices` in place, compute the
statistics from the sorted array, and return everything.  `Z s d` is the
normal draw consumed by simulation `s` on day `d`. -/
noncomputable def runMonteCarloSimulation (p : SimulationParams) (Z : ℕ → ℕ → ℝ) :
    SimulationResults :=
  let paths := (List.range p.numSimulations).map (fun s => simPath p (Z s))
  let finalPrices := sortAsc (finalPricesRaw p Z)
  { paths := paths
    finalPrices := finalPrices
    statistics :=
      { averageEndingPrice := finalPrices.sum / finalPrices.length
        probabilityOfGain :=
          ((finalPrices.filter (fun price => decide (p.currentPrice < price))).length : ℝ) /
            finalPrices.length
        percentile5 := finalPrices.getD (Int.toNat ⌊(finalPrices.length : ℝ) * 0.05⌋) 0
        percentile95 := finalPrices.getD (Int.toNat ⌊(finalPrices.length : ℝ) * 0.95⌋) 0
        maxPrice := listMax finalPrices
        minPrice := listMin finalPrices } }

structure RiskMetricsResult where
  valueAtRisk : ℝ
  expectedShortfall : ℝ
  sharpeRatio : ℝ
  maxDrawdown : ℝ

/-- `calculateRiskMetrics` (src/lib/monteCarlo.ts, lines 125-148).  The final
`sharpeRatio` division uses Lean's `x / 0 = 0` convention; its IEEE behaviour
is modelled separately by `sharpeRatioIEEE`. -/
noncomputable def calculateRiskMetrics (finalPrices : List ℝ)
    (currentPrice confidence : ℝ) : RiskMetricsResult :=
  let sortedPrices := sortAsc finalPrices
  let returns := finalPrices.map (fun price => (price - currentPrice) / currentPrice)
  let varIndex := Int.toNat ⌊(sortedPrices.length : ℝ) * confidence⌋
  let worstReturns := returns.take (varIndex + 1)
  let averageReturn := returns.sum / returns.length
  let returnStd :=
    Real.sqrt ((returns.map (fun ret => (ret - averageReturn) ^ 2)).sum / returns.length)
  { valueAtRisk := currentPrice - sortedPrices.getD varIndex 0
    expectedShortfall := worstReturns.sum / worstReturns.length
    sharpeRatio := (averageReturn - 0.03) / returnStd
    maxDrawdown := (currentPrice - listMin sortedPrices) / currentPrice }

/-- The `sharpeRatio` of `calculateRiskMetrics` with the final division
modelled at IEEE precision of meaning: `returnStd` is a nonnegative double
(+0 when zero), so `(averageReturn - 0.03) / returnStd` follows the
finite-by-zero rule of `jsDivFinite`. -/
noncomputable def sharpeRatioIEEE (finalPrices : List ℝ) (currentPrice : ℝ) : JsNum :=
  let returns := finalPrices.map (fun price => (price - currentPrice) / currentPrice)
  let averageReturn := returns.sum / returns.length
  let returnStd :=
    Real.sqrt ((returns.map (fun ret => (ret - averageReturn) ^ 2)).sum / returns.length)
  jsDivFinite (averageReturn - 0.03) returnStd

end MonteCarlo

namespace Enhanced

/- ------------------------------------------------------------------
The enhanced Monte Carlo library (src/unnamed/part_014): the same GBM
simulation with an always-on jump-diffusion overlay.
------------------------------------------------------------------ -/

open MonteCarlo

/-- Price after `d` days of the enhanced loop (part_014, lines 71-83):
`priceChange = drift + diffusion * randomShock`, and with probability
`jumpIntensity = 0.02` per day (`Math.random() < jumpIntensity`) an extra
`jumpMean + jumpStd * randomNormal() = -0.05 + 0.1 * J d` is added before
exponentiating.  `Z d` is the diffusion shock, `U d` the uniform jump-trigger
draw and `J d` the jump-size normal draw of day `d`. -/
noncomputable def gbmJumpPrice (p : SimulationParams) (Z U J : ℕ → ℝ) : ℕ → ℝ
  | 0 => p.currentPrice
  | d + 1 =>
      gbmJumpPrice p Z U J d *
        Real.exp (drift p + diffusion p * Z (d + 1) +
          (if U (d + 1) < 0.02 then -0.05 + 0.1 * J (d + 1) else 0))

/-- The path array of one enhanced simulation. -/
noncomputable def simPathJump (p : SimulationParams) (Z U J : ℕ → ℝ) : List ℝ :=
  (List.range (p.timeHorizon + 1)).map (gbmJumpPrice p Z U J)

/-- `runMonteCarloSimulation` of part_014 (lines 50-111): identical to the
base version except for the jump overlay in the daily step.  The statistics
block is the same as the base library's. -/
noncomputable def runMonteCarloSimulation (p : SimulationParams)
    (Z U J : ℕ → ℕ → ℝ) : SimulationResults :=
  let paths := (List.range p.numSimulations).map (fun s => simPathJump p (Z s) (U s) (J s))
  let finalPrices :=
    sortAsc ((List.range p.numSimulations).map
      (fun s => gbmJumpPrice p (Z s) (U s) (J s) p.timeHorizon))
  { paths := paths
    finalPrices := finalPrices
    statistics :=
      { averageEndingPrice := finalPrices.sum / finalPrices.length
        probabilityOfGain :=
          ((finalPrices.filter (fun price => decide (p.currentPrice < price))).length : ℝ) /
            finalPrices.length
        percentile5 := finalPrices.getD (Int.toNat ⌊(finalPrices.length : ℝ) * 0.05⌋) 0
        percentile95 := finalPrices.getD (Int.toNat ⌊(finalPrices.length : ℝ) * 0.95⌋) 0
        maxPrice := listMax finalPrices
        minPrice := listMin finalPrices } }

end Enhanced

namespace OptionsCalculator

/- ------------------------------------------------------------------
Options pricing library (src/unnamed/part_015): Black-Scholes with the
Abramowitz-Stegun rational approximation of the standard normal CDF.
------------------------------------------------------------------ -/

structure OptionParameters where
  spot : ℝ
  strike : ℝ
  timeToExpiry : ℝ
  riskFreeRate : ℝ
  volatility : ℝ
  dividendYield : ℝ

structure OptionPrice where
  call : ℝ
  put : ℝ

structure GreeksResult where
  delta : ℝ
  gamma : ℝ
  theta : ℝ
  vega : ℝ
  rho : ℝ

inductive OptionType where
  | call
  | put

/-- The Horner polynomial of `normCDF`:
`(((a5*t + a4)*t + a3)*t + a2)*t + a1` with the source's coefficients
`a1 = 0.254829592, a2 = -0.284496736, a3 = 1.421413741, a4 = -1.453152027,
a5 = 1.061405429`. -/
noncomputable def erfPoly (t : ℝ) : ℝ :=
  (((1.061405429 * t + -1.453152027) * t + 1.421413741) * t + -0.284496736) * t +
    0.254829592

/-- `normCDF` (part_015, lines 46-61): sign split, `x := |x| / sqrt 2`,
`t = 1 / (1 + p*x)` with `p = 0.3275911`,
`y = 1 - erfPoly t * t * exp (-x*x)`, result `0.5 * (1 + sign * y)`. -/
noncomputable def normCDF (x : ℝ) : ℝ :=
  let sign : ℝ := if x < 0 then -1 else 1
  let xs := |x| / Real.sqrt 2
  let t := 1 / (1 + 0.3275911 * xs)
  let y := 1 - erfPoly t * t * Real.exp (-xs * xs)
  0.5 * (1 + sign * y)

/-- `normPDF` (part_015, lines 64-66). -/
noncomputable def normPDF (x : ℝ) : ℝ :=
  Real.exp (-0.5 * x * x) / Real.sqrt (2 * Real.pi)

/-- `d1` of Black-Scholes as computed on lines 78-79. -/
noncomputable def d1 (p : OptionParameters) : ℝ :=
  (Real.log (p.spot / p.strike) +
      (p.riskFreeRate - p.dividendYield + 0.5 * p.volatility * p.volatility) *
        p.timeToExpiry) /
    (p.volatility * Real.sqrt p.timeToExpiry)

/-- `d2 = d1 - volatility * sqrt timeToExpiry` (line 80). -/
noncomputable def d2 (p : OptionParameters) : ℝ :=
  d1 p - p.volatility * Real.sqrt p.timeToExpiry

/-- The `callPrice` of lines 87-88, before the final clamp to `≥ 0`. -/
noncomputable def callPrice (p : OptionParameters) : ℝ :=
  p.spot * Real.exp (-p.dividendYield * p.timeToExpiry) * normCDF (d1 p) -
    p.strike * Real.exp (-p.riskFreeRate * p.timeToExpiry) * normCDF (d2 p)

/-- The `putPrice` of lines 90-91, before the final clamp to `≥ 0`. -/
noncomputable def putPrice (p : OptionParameters) : ℝ :=
  p.strike * Real.exp (-p.riskFreeRate * p.timeToExpiry) * normCDF (-(d2 p)) -
    p.spot * Real.exp (-p.dividendYield * p.timeToExpiry) * normCDF (-(d1 p))

/-- `blackScholes` (part_015, lines 69-94): for `timeToExpiry ≤ 0` return the
intrinsic values directly; otherwise the Black-Scholes prices, each clamped
to `≥ 0` by `Math.max(·, 0)`. -/
noncomputable def blackScholes (p : OptionParameters) : OptionPrice :=
  if p.timeToExpiry ≤ 0 then
    { call := max (p.spot - p.strike) 0, put := max (p.strike - p.spot) 0 }
  else
    { call := max (callPrice p) 0, put := max (putPrice p) 0 }

/-- `calculateGreeks` (part_015, lines 97-150): all-zero result for
`timeToExpiry ≤ 0`, otherwise the analytic Black-Scholes partials with the
source's unit conventions (theta per day, vega and rho per 1%). -/
noncomputable def calculateGreeks (p : OptionParameters) (optionType : OptionType) :
    GreeksResult :=
  if p.timeToExpiry ≤ 0 then
    { delta := 0, gamma := 0, theta := 0, vega := 0, rho := 0 }
  else
    let nd1 := normCDF (d1 p)
    let nMinusd1 := normCDF (-(d1 p))
    let nd2 := normCDF (d2 p)
    let nMinusd2 := normCDF (-(d2 p))
    let pdf1 := normPDF (d1 p)
    let delta :=
      match optionType with
      | OptionType.call => Real.exp (-p.dividendYield * p.timeToExpiry) * nd1
      | OptionType.put => -Real.exp (-p.dividendYield * p.timeToExpiry) * nMinusd1
    let gamma :=
      Real.exp (-p.dividendYield * p.timeToExpiry) * pdf1 /
        (p.spot * p.volatility * Real.sqrt p.timeToExpiry)
    let term1 :=
      -p.spot * pdf1 * p.volatility * Real.exp (-p.dividendYield * p.timeToExpiry) /
        (2 * Real.sqrt p.timeToExpiry)
    let term2 := p.riskFreeRate * p.strike * Real.exp (-p.riskFreeRate * p.timeToExpiry)
    let term3 := p.dividendYield * p.spot * Real.exp (-p.dividendYield * p.timeToExpiry)
    let theta :=
      (match optionType with
        | OptionType.call => term1 - term2 * nd2 + term3 * nd1
        | OptionType.put => term1 + term2 * nMinusd2 - term3 * nMinusd1) / 365
    let vega :=
      p.spot * Real.exp (-p.dividendYield * p.timeToExpiry) * pdf1 *
        Real.sqrt p.timeToExpiry / 100
    let rho :=
      match optionType with
      | OptionType.call =>
          p.strike * p.timeToExpiry * Real.exp (-p.riskFreeRate * p.timeToExpiry) *
            nd2 / 100
      | OptionType.put =>
          -p.strike * p.timeToExpiry * Real.exp (-p.riskFreeRate * p.timeToExpiry) *
            nMinusd2 / 100
    { delta := delta, gamma := gamma, theta := theta, vega := vega, rho := rho }

end OptionsCalculator

namespace RiskManager

/- ------------------------------------------------------------------
Risk management library (src/unnamed/part_013, class RiskManager).
------------------------------------------------------------------ -/

/-- `calculateVolatility` (part_013, lines 74-78): annualized standard
deviation with the `n - 1` sample denominator. -/
noncomputable def calculateVolatility (returns : List ℝ) (periods : ℝ) : ℝ :=
  let mean := returns.sum / returns.length
  let variance :=
    (returns.map (fun ret => (ret - mean) ^ 2)).sum / ((returns.length : ℝ) - 1)
  Real.sqrt (variance * periods)

/-- `calculateSharpeRatio` (part_013, lines 81-85): guarded by
`volatility > 0 ? … : 0`. -/
noncomputable def calculateSharpeRatio (returns : List ℝ)
    (riskFreeRate periods : ℝ) : ℝ :=
  let meanReturn := returns.sum / returns.length * periods
  let volatility := calculateVolatility returns periods
  if 0 < volatility then (meanReturn - riskFreeRate) / volatility else 0

/-- `calculateSortino` (part_013, lines 88-98): returns 0 when there are
no downside returns, and 0 again when the downside deviation is not
positive. -/
noncomputable def calculateSortino (returns : List ℝ)
    (targetReturn periods : ℝ) : ℝ :=
  let meanReturn := returns.sum / returns.length * periods
  let downsideReturns := returns.filter (fun ret => decide (ret < targetReturn))
  if downsideReturns.length = 0 then 0
  else
    let downsideDeviation :=
      Real.sqrt
        ((downsideReturns.map (fun ret => (ret - targetReturn) ^ 2)).sum /
            downsideReturns.length * periods)
    if 0 < downsideDeviation then (meanReturn - targetReturn) / downsideDeviation
    else 0

end RiskManager

namespace Portfolio

/- ------------------------------------------------------------------
Portfolio simulation library (src/unnamed/part_016).
------------------------------------------------------------------ -/

/-- Matrix entry access `m[i][j]` with JavaScript-style defaulting. -/
noncomputable def mget (m : List (List ℝ)) (i j : ℕ) : ℝ :=
  (m.getD i []).getD j 0

/-- One off-diagonal Cholesky entry
`L[i][j] = (matrix[i][j] - Σ_{k<j} L[i][k]*L[j][k]) / L[j][j]`
(part_016, lines 231-237); `rowAcc` holds the entries `L[i][0..j-1]`
computed so far and `prevRows` the completed rows `L[0..i-1]`. -/
noncomputable def cholEntryOff (A : List (List ℝ)) (prevRows : List (List ℝ))
    (rowAcc : List ℝ) (i j : ℕ) : ℝ :=
  (mget A i j -
      ((List.range j).map (fun k => rowAcc.getD k 0 * mget prevRows j k)).sum) /
    mget prevRows j j

/-- Row `i` of the Cholesky factor: the off-diagonal entries in order, the
diagonal `sqrt(matrix[i][i] - Σ_{k<i} L[i][k]²)` (lines 225-230), then the
zero fill of the upper triangle (`Array(n).fill(0)`). -/
noncomputable def cholRowBuild (A : List (List ℝ)) (prevRows : List (List ℝ))
    (i : ℕ) : List ℝ :=
  let off :=
    (List.range i).foldl (fun rowAcc j => rowAcc ++ [cholEntryOff A prevRows rowAcc i j]) []
  let diag :=
    Real.sqrt (mget A i i - ((List.range i).map (fun k => off.getD k 0 ^ 2)).sum)
  off ++ [diag] ++ List.replicate (A.length - i - 1) 0

/-- The first `n` rows of the Cholesky factor, in computation order. -/
noncomputable def cholRows (A : List (List ℝ)) : ℕ → List (List ℝ)
  | 0 => []
  | i + 1 => cholRows A i ++ [cholRowBuild A (cholRows A i) i]

/-- `choleskyDecomposition` (part_016, lines 219-242): the full `n × n`
lower-triangular factor.  The function has no failure path; a non-PSD input
reaches `Math.sqrt` of a negative number, which is NaN in JavaScript and 0
under Lean's real square root. -/
noncomputable def choleskyDecomposition (A : List (List ℝ)) : List (List ℝ) :=
  cholRows A A.length

/-- `generateCorrelatedRandoms` (part_016, lines 204-216) with the `n`
uniform..normal draws passed explicitly: `correlated[i] = Σ_{j≤i} L[i][j]*u[j]`. -/
noncomputable def generateCorrelatedRandoms (n : ℕ)
    (correlationMatrix : List (List ℝ)) (uncorrelated : List ℝ) : List ℝ :=
  let L := choleskyDecomposition correlationMatrix
  (List.range n).map
    (fun i => ((List.range (i + 1)).map (fun j => mget L i j * uncorrelated.getD j 0)).sum)

/-- `L · Lᵀ`, used to check a Cholesky factor against its input. -/
noncomputable def matTimesTranspose (L : List (List ℝ)) : List (List ℝ) :=
  L.map (fun ri => L.map (fun rj => (List.zipWith (fun a b => a * b) ri rj).sum))

/-- Maximum drawdown of one path (part_016, lines 253-270): running peak,
drawdown `(peak - value)/peak`, maximum over the path. -/
noncomputable def pathMaxDrawdown (path : List ℝ) : ℝ :=
  (path.foldl
      (fun st v =>
        let peak := max st.1 v
        (peak, max st.2 ((peak - v) / peak)))
      (path.headD 0, 0)).2

/-- `calculateMaxDrawdown` over an ensemble of paths. -/
noncomputable def calculateMaxDrawdown (paths : List (List ℝ)) : ℝ :=
  paths.foldl (fun acc path => max acc (pathMaxDrawdown path)) 0

structure PortfolioStatistics where
  averageEndingValue : ℝ
  probabilityOfGain : ℝ
  percentile5 : ℝ
  percentile95 : ℝ
  maxValue : ℝ
  minValue : ℝ
  expectedReturn : ℝ
  volatility : ℝ
  sharpeRatio : ℝ

structure PortfolioRiskMetrics where
  var95 : ℝ
  var99 : ℝ
  expectedShortfall : ℝ
  maxDrawdown : ℝ

/-- The `statistics` block of `runPortfolioSimulation` (part_016, lines
166-183), as a function of the final portfolio values and the initial
value; the enclosing function is otherwise asynchronous data fetching and
path generation. -/
noncomputable def portfolioStatistics (finalValues : List ℝ)
    (initialValue : ℝ) : PortfolioStatistics :=
  let sortedFinalValues := MonteCanvas.sortAsc finalValues
  let returns := finalValues.map (fun v => (v - initialValue) / initialValue)
  let averageReturn := returns.sum / returns.length
  let returnStd :=
    Real.sqrt ((returns.map (fun ret => (ret - averageReturn) ^ 2)).sum / returns.length)
  { averageEndingValue := finalValues.sum / finalValues.length
    probabilityOfGain :=
      ((finalValues.filter (fun v => decide (initialValue < v))).length : ℝ) /
        finalValues.length
    percentile5 := sortedFinalValues.getD (Int.toNat ⌊0.05 * (finalValues.length : ℝ)⌋) 0
    percentile95 := sortedFinalValues.getD (Int.toNat ⌊0.95 * (finalValues.length : ℝ)⌋) 0
    maxValue := MonteCanvas.listMax finalValues
    minValue := MonteCanvas.listMin finalValues
    expectedReturn := averageReturn * 252
    volatility := returnStd * Real.sqrt 252
    sharpeRatio := averageReturn * 252 / (returnStd * Real.sqrt 252) }

/-- The `riskMetrics` block of `runPortfolioSimulation` (part_016, lines
185-191): `var95/var99` subtract the sorted values at the floor indices, and
`expectedShortfall` is `initialValue` minus the mean of the
`floor(0.05·N)` smallest final values (division binds before subtraction). -/
noncomputable def portfolioRiskMetrics (finalValues : List ℝ)
    (initialValue : ℝ) (paths : List (List ℝ)) : PortfolioRiskMetrics :=
  let sortedFinalValues := MonteCanvas.sortAsc finalValues
  { var95 :=
      initialValue - sortedFinalValues.getD (Int.toNat ⌊0.05 * (finalValues.length : ℝ)⌋) 0
    var99 :=
      initialValue - sortedFinalValues.getD (Int.toNat ⌊0.01 * (finalValues.length : ℝ)⌋) 0
    expectedShortfall :=
      initialValue -
        (sortedFinalValues.take (Int.toNat ⌊0.05 * (finalValues.length : ℝ)⌋)).sum /
          (Int.toNat ⌊0.05 * (finalValues.length : ℝ)⌋ : ℝ)
    maxDrawdown := calculateMaxDrawdown paths }

end Portfolio

/- ------------------------------------------------------------------
Spec-side definitions, written from the specification's wording, for the
refinement claims.
------------------------------------------------------------------ -/

/-- Modelled from the spec: percentile policy "sort ascending; percentile `p`
= element at index `floor(p·N)` (nearest-rank, no interpolation)". -/
noncomputable def valueAtPercentile (xs : List ℝ) (p : ℝ) : ℝ :=
  (sortAsc xs).getD (Int.toNat ⌊p * (xs.length : ℝ)⌋) 0

/-- Modelled from the spec: CVaR as "the mean of the `floor(confidence·N)+1`
smallest fractional-loss returns", i.e. the mean of the first
`floor(confidence·N)+1` entries of the ascending-sorted fractional returns. -/
noncomputable def cvarSpec (finalValues : List ℝ) (initialValue confidence : ℝ) : ℝ :=
  ((sortAsc (finalValues.map (fun v => (v - initialValue) / initialValue))).take
      (Int.toNat ⌊confidence * (finalValues.length : ℝ)⌋ + 1)).sum /
    (((sortAsc (finalValues.map (fun v => (v - initialValue) / initialValue))).take
        (Int.toNat ⌊confidence * (finalValues.length : ℝ)⌋ + 1)).length : ℝ)

/- ==================================================================
Theorems
================================================================== -/

/-- Claim C2: for every OptionParameters with timeToExpiry = 0 (and more
generally timeToExpiry ≤ 0), blackScholes returns exactly the intrinsic
values: call = max(spot − strike, 0) and put = max(strike − spot, 0); the
early return takes this branch before any division is reached. -/
theorem C2_blackScholes_intrinsic_at_expiry
    (p : OptionsCalculator.OptionParameters) (h : p.timeToExpiry ≤ 0) :
    OptionsCalculator.blackScholes p =
      { call := max (p.spot - p.strike) 0, put := max (p.strike - p.spot) 0 } := by
  unfold OptionsCalculator.blackScholes
  rw [if_pos h]

theorem C2_blackScholes_intrinsic_at_expiry_witness :
    ((⟨100, 90, 0, 0.05, 0.2, 0⟩ : OptionsCalculator.OptionParameters).timeToExpiry ≤ 0) ∧
      OptionsCalculator.blackScholes ⟨100, 90, 0, 0.05, 0.2, 0⟩ =
        { call := 10, put := 0 } := by
  refine ⟨le_refl 0, ?_⟩
  rw [C2_blackScholes_intrinsic_at_expiry ⟨100, 90, 0, 0.05, 0.2, 0⟩ (le_refl 0)]
  norm_num [max_def]

/-- Claim C9: for every OptionParameters with timeToExpiry ≤ 0 and either
option type, calculateGreeks returns delta = gamma = theta = vega = rho = 0 —
including for in-the-money options at expiry. -/
theorem C9_greeks_zero_at_expiry
    (p : OptionsCalculator.OptionParameters) (ot : OptionsCalculator.OptionType)
    (h : p.timeToExpiry ≤ 0) :
    OptionsCalculator.calculateGreeks p ot =
      { delta := 0, gamma := 0, theta := 0, vega := 0, rho := 0 } := by
  unfold OptionsCalculator.calculateGreeks
  rw [if_pos h]

theorem C9_greeks_zero_at_expiry_witness :
    ((⟨150, 100, 0, 0.05, 0.2, 0⟩ : OptionsCalculator.OptionParameters).timeToExpiry ≤ 0) ∧
      OptionsCalculator.calculateGreeks ⟨150, 100, 0, 0.05, 0.2, 0⟩
          OptionsCalculator.OptionType.call =
        { delta := 0, gamma := 0, theta := 0, vega := 0, rho := 0 } :=
  ⟨le_refl 0,
    C9_greeks_zero_at_expiry ⟨150, 100, 0, 0.05, 0.2, 0⟩
      OptionsCalculator.OptionType.call (le_refl 0)⟩

namespace MonteCarlo

/-- The last entry of a simulated path is the day-`timeHorizon` price. -/
theorem simPath_getLastD (p : SimulationParams) (Z : ℕ → ℝ) :
    (simPath p Z).getLastD 0 = gbmPrice p Z p.timeHorizon := by
  unfold simPath
  rw [List.range_succ, List.map_append]
  simp

theorem runMC_paths (p : SimulationParams) (Z : ℕ → ℕ → ℝ) :
    (runMonteCarloSimulation p Z).paths =
      (List.range p.numSimulations).map (fun s => simPath p (Z s)) := rfl

theorem runMC_finalPrices (p : SimulationParams) (Z : ℕ → ℕ → ℝ) :
    (runMonteCarloSimulation p Z).finalPrices = sortAsc (finalPricesRaw p Z) := rfl

/-- Claim C10: runMonteCarloSimulation sorts finalPrices before returning,
so the returned finalPrices is ascending and is a permutation of the terminal
elements of the returned paths; and the per-index correspondence between a
path and its final value is not preserved (witnessed by a two-path run whose
random draws produce a first path ending above the second). -/
theorem C10_finalPrices_sorted_perm (p : SimulationParams) (Z : ℕ → ℕ → ℝ) :
    List.Sorted (· ≤ ·) (runMonteCarloSimulation p Z).finalPrices ∧
      ((runMonteCarloSimulation p Z).finalPrices).Perm
        (((runMonteCarloSimulation p Z).paths).map (fun path => path.getLastD 0)) ∧
      ∃ (q : SimulationParams) (W : ℕ → ℕ → ℝ) (i : ℕ),
        (runMonteCarloSimulation q W).finalPrices.getD i 0 ≠
          (((runMonteCarloSimulation q W).paths.getD i []).getLastD 0) := by
  refine ⟨List.sorted_insertionSort _ _, ?_, ?_⟩
  · rw [runMC_finalPrices, runMC_paths, List.map_map]
    have hmap :
        ((fun path => List.getLastD path 0) ∘ fun s => simPath p (Z s)) =
          fun s => gbmPrice p (Z s) p.timeHorizon := by
      funext s
      exact simPath_getLastD p (Z s)
    rw [hmap]
    exact List.perm_insertionSort _ _
  · refine ⟨⟨100, 0, 1, 1, 2⟩, fun s _ => if s = 0 then 1 else 0, 0, ?_⟩
    have hdr : drift ⟨100, 0, 1, 1, 2⟩ = (0 - 0.5 * 1 * 1) * (1 / 252) := rfl
    have hdf : diffusion ⟨100, 0, 1, 1, 2⟩ = 1 * Real.sqrt (1 / 252) := rfl
    have hdiff : 0 < diffusion ⟨100, 0, 1, 1, 2⟩ := by
      rw [hdf, one_mul]
      exact Real.sqrt_pos.mpr (by norm_num)
    have hlt :
        (100 : ℝ) *
            Real.exp (drift ⟨100, 0, 1, 1, 2⟩ + diffusion ⟨100, 0, 1, 1, 2⟩ * 0) <
          100 * Real.exp (drift ⟨100, 0, 1, 1, 2⟩ + diffusion ⟨100, 0, 1, 1, 2⟩ * 1) := by
      have h1 :
          Real.exp (drift ⟨100, 0, 1, 1, 2⟩ + diffusion ⟨100, 0, 1, 1, 2⟩ * 0) <
            Real.exp (drift ⟨100, 0, 1, 1, 2⟩ + diffusion ⟨100, 0, 1, 1, 2⟩ * 1) :=
        Real.exp_lt_exp.mpr (by nlinarith)
      nlinarith [Real.exp_pos (drift ⟨100, 0, 1, 1, 2⟩ + diffusion ⟨100, 0, 1, 1, 2⟩ * 0)]
    have hraw :
        finalPricesRaw ⟨100, 0, 1, 1, 2⟩ (fun s _ => if s = 0 then 1 else 0) =
          [100 * Real.exp (drift ⟨100, 0, 1, 1, 2⟩ + diffusion ⟨100, 0, 1, 1, 2⟩ * 1),
            100 * Real.exp (drift ⟨100, 0, 1, 1, 2⟩ + diffusion ⟨100, 0, 1, 1, 2⟩ * 0)] := by
      unfold finalPricesRaw
      rw [show List.range (SimulationParams.numSimulations ⟨100, 0, 1, 1, 2⟩) = [0, 1] by rfl]
      simp [gbmPrice]
    have hpaths :
        ((runMonteCarloSimulation ⟨100, 0, 1, 1, 2⟩
              (fun s _ => if s = 0 then 1 else 0)).paths.getD 0 []).getLastD 0 =
          100 * Real.exp (drift ⟨100, 0, 1, 1, 2⟩ + diffusion ⟨100, 0, 1, 1, 2⟩ * 1) := by
      rw [runMC_paths]
      rw [show List.range (SimulationParams.numSimulations ⟨100, 0, 1, 1, 2⟩) = [0, 1] by rfl]
      simp only [List.map_cons, List.map_nil, List.getD_cons_zero]
      rw [simPath_getLastD]
      simp [gbmPrice]
    have hfp :
        (runMonteCarloSimulation ⟨100, 0, 1, 1, 2⟩
              (fun s _ => if s = 0 then 1 else 0)).finalPrices =
          [100 * Real.exp (drift ⟨100, 0, 1, 1, 2⟩ + diffusion ⟨100, 0, 1, 1, 2⟩ * 0),
            100 * Real.exp (drift ⟨100, 0, 1, 1, 2⟩ + diffusion ⟨100, 0, 1, 1, 2⟩ * 1)] := by
      rw [runMC_finalPrices, hraw]
      unfold sortAsc
      simp only [List.insertionSort, List.orderedInsert]
      rw [if_neg (not_le.mpr hlt)]
    rw [hfp, hpaths]
    simp only [List.getD_cons_zero]
    exact ne_of_lt hlt

theorem runMC_percentile5 (p : SimulationParams) (Z : ℕ → ℕ → ℝ) :
    (runMonteCarloSimulation p Z).statistics.percentile5 =
      (sortAsc (finalPricesRaw p Z)).getD
        (Int.toNat ⌊((sortAsc (finalPricesRaw p Z)).length : ℝ) * 0.05⌋) 0 := rfl

theorem runMC_percentile95 (p : SimulationParams) (Z : ℕ → ℕ → ℝ) :
    (runMonteCarloSimulation p Z).statistics.percentile95 =
      (sortAsc (finalPricesRaw p Z)).getD
        (Int.toNat ⌊((sortAsc (finalPricesRaw p Z)).length : ℝ) * 0.95⌋) 0 := rfl

theorem sortAsc_length_real (l : List ℝ) :
    ((sortAsc l).length : ℝ) = (l.length : ℝ) := by
  norm_cast
  exact (List.perm_insertionSort _ _).length_eq

/-- Claim C4: the statistics and risk functions compute percentile p as the
element at index floor(p·N) of the ascending-sorted array (nearest-rank, no
interpolation), and VaR as the initial value minus the sorted element at
index floor(confidence·N) — each agrees with the spec-side
`valueAtPercentile`. -/
theorem C4_percentiles_and_var_nearest_rank :
    (∀ (p : SimulationParams) (Z : ℕ → ℕ → ℝ),
        (runMonteCarloSimulation p Z).statistics.percentile5 =
            valueAtPercentile (finalPricesRaw p Z) 0.05 ∧
          (runMonteCarloSimulation p Z).statistics.percentile95 =
            valueAtPercentile (finalPricesRaw p Z) 0.95) ∧
      (∀ (fp : List ℝ) (cp conf : ℝ),
        (calculateRiskMetrics fp cp conf).valueAtRisk =
          cp - valueAtPercentile fp conf) ∧
      (∀ (fv : List ℝ) (iv : ℝ) (paths : List (List ℝ)),
        (Portfolio.portfolioStatistics fv iv).percentile5 =
            valueAtPercentile fv 0.05 ∧
          (Portfolio.portfolioStatistics fv iv).percentile95 =
            valueAtPercentile fv 0.95 ∧
          (Portfolio.portfolioRiskMetrics fv iv paths).var95 =
            iv - valueAtPercentile fv 0.05 ∧
          (Portfolio.portfolioRiskMetrics fv iv paths).var99 =
            iv - valueAtPercentile fv 0.01) := by
  refine ⟨?_, ?_, ?_⟩
  · intro p Z
    constructor
    · rw [runMC_percentile5, sortAsc_length_real,
        mul_comm ((finalPricesRaw p Z).length : ℝ) 0.05]
      rfl
    · rw [runMC_percentile95, sortAsc_length_real,
        mul_comm ((finalPricesRaw p Z).length : ℝ) 0.95]
      rfl
  · intro fp cp conf
    show cp - (sortAsc fp).getD (Int.toNat ⌊((sortAsc fp).length : ℝ) * conf⌋) 0 = _
    rw [sortAsc_length_real, mul_comm ((fp.length : ℝ)) conf]
    rfl
  · intro fv iv paths
    exact ⟨rfl, rfl, rfl, rfl⟩

/-- With volatility 0 the daily step multiplies by `exp(expectedReturn/252)`
whatever the random draw is. -/
theorem gbmPrice_volzero (p : SimulationParams) (Z : ℕ → ℝ)
    (hvol : p.volatility = 0) :
    ∀ d : ℕ,
      gbmPrice p Z d = p.currentPrice * Real.exp (p.expectedReturn * (1 / 252) * d) := by
  intro d
  induction d with
  | zero => simp [gbmPrice]
  | succ d ih =>
      have hstep : gbmPrice p Z (d + 1) =
          gbmPrice p Z d * Real.exp (drift p + diffusion p * Z (d + 1)) := by
        simp only [gbmPrice]
      rw [hstep, ih, mul_assoc, ← Real.exp_add]
      unfold drift diffusion
      rw [hvol]
      congr 1
      push_cast
      ring_nf

/-- Claim C1 (amended): for the base runMonteCarloSimulation
(src/lib/monteCarlo.ts) with volatility = 0, every simulated path is the
deterministic sequence currentPrice·exp(expectedReturn·d/252), independent of
the random draws, and the spec's example returns finalPrices = [100]; the
enhanced variant of part_014 fails this (see the counterexample) because its
jump overlay still consumes random draws at volatility 0. -/
theorem C1_base_volzero_deterministic (p : SimulationParams) (Z : ℕ → ℕ → ℝ)
    (hvol : p.volatility = 0) :
    ((runMonteCarloSimulation p Z).paths =
        List.replicate p.numSimulations
          ((List.range (p.timeHorizon + 1)).map
            (fun d : ℕ =>
              p.currentPrice * Real.exp (p.expectedReturn * (1 / 252) * (d : ℝ))))) ∧
      ∀ W : ℕ → ℕ → ℝ,
        (runMonteCarloSimulation ⟨100, 0, 0, 10, 1⟩ W).finalPrices = [100] := by
  constructor
  · rw [runMC_paths]
    have hpath : ∀ s : ℕ,
        simPath p (Z s) =
          (List.range (p.timeHorizon + 1)).map
            (fun d : ℕ =>
              p.currentPrice * Real.exp (p.expectedReturn * (1 / 252) * (d : ℝ))) := by
      intro s
      unfold simPath
      exact List.map_congr_left (fun d _ => gbmPrice_volzero p (Z s) hvol d)
    rw [show (fun s => simPath p (Z s)) =
        fun _ : ℕ =>
          (List.range (p.timeHorizon + 1)).map
            (fun d : ℕ =>
              p.currentPrice * Real.exp (p.expectedReturn * (1 / 252) * (d : ℝ))) from
      funext hpath]
    rw [List.map_const', List.length_range]
  · intro W
    rw [runMC_finalPrices]
    have hraw : finalPricesRaw ⟨100, 0, 0, 10, 1⟩ W = [(100 : ℝ)] := by
      unfold finalPricesRaw
      rw [show List.range (SimulationParams.numSimulations ⟨100, 0, 0, 10, 1⟩) = [0]
        from rfl]
      simp only [List.map_cons, List.map_nil]
      rw [gbmPrice_volzero ⟨100, 0, 0, 10, 1⟩ (W 0) rfl 10]
      norm_num
    rw [hraw]
    simp [sortAsc, List.insertionSort, List.orderedInsert]

theorem C1_base_volzero_deterministic_witness :
    ((⟨100, 1, 0, 5, 1⟩ : SimulationParams).volatility = 0) ∧
      (runMonteCarloSimulation ⟨100, 1, 0, 5, 1⟩ (fun _ _ => 0)).paths =
        List.replicate 1
          ((List.range 6).map
            (fun d : ℕ => (100 : ℝ) * Real.exp (1 * (1 / 252) * (d : ℝ)))) :=
  ⟨rfl, (C1_base_volzero_deterministic ⟨100, 1, 0, 5, 1⟩ (fun _ _ => 0) rfl).1⟩

end MonteCarlo

namespace Enhanced

open MonteCarlo

theorem gbmJumpPrice_succ (p : SimulationParams) (Z U J : ℕ → ℝ) (d : ℕ) :
    gbmJumpPrice p Z U J (d + 1) =
      gbmJumpPrice p Z U J d *
        Real.exp (drift p + diffusion p * Z (d + 1) +
          (if U (d + 1) < 0.02 then -0.05 + 0.1 * J (d + 1) else 0)) := by
  simp only [gbmJumpPrice]

theorem runMCJump_finalPrices (p : SimulationParams) (Z U J : ℕ → ℕ → ℝ) :
    (Enhanced.runMonteCarloSimulation p Z U J).finalPrices =
      sortAsc ((List.range p.numSimulations).map
        (fun s => gbmJumpPrice p (Z s) (U s) (J s) p.timeHorizon)) := rfl

/-- Claim C1 (counterexample): the enhanced runMonteCarloSimulation of
part_014, at the spec's example parameters (volatility 0), depends on the
random draws: on a stream whose day-1 uniform draw triggers the jump (0 <
0.02) with jump normal 0, the returned finalPrices is [100·exp(−0.05)], not
[100]. -/
theorem C1_counterexample :
    (Enhanced.runMonteCarloSimulation ⟨100, 0, 0, 10, 1⟩ (fun _ _ => 0)
        (fun _ d => if d = 1 then 0 else 1) (fun _ _ => 0)).finalPrices ≠ [100] := by
  have hval : ∀ n : ℕ,
      gbmJumpPrice ⟨100, 0, 0, 10, 1⟩ (fun _ => 0)
          (fun d => if d = 1 then 0 else 1) (fun _ => 0) (n + 1) =
        100 * Real.exp (-(1 / 20)) := by
    intro n
    induction n with
    | zero =>
        rw [gbmJumpPrice_succ]
        norm_num [gbmJumpPrice, drift, diffusion]
    | succ n ih =>
        rw [gbmJumpPrice_succ, ih]
        have hU : (if n + 1 + 1 = 1 then (0 : ℝ) else 1) = 1 := if_neg (by omega)
        norm_num [hU, drift, diffusion, Real.exp_zero]
  have hfp :
      (Enhanced.runMonteCarloSimulation ⟨100, 0, 0, 10, 1⟩ (fun _ _ => 0)
          (fun _ d => if d = 1 then 0 else 1) (fun _ _ => 0)).finalPrices =
        [100 * Real.exp (-(1 / 20))] := by
    rw [runMCJump_finalPrices]
    rw [show List.range (SimulationParams.numSimulations ⟨100, 0, 0, 10, 1⟩) = [0]
      from rfl]
    simp only [List.map_cons, List.map_nil]
    have h10 :
        gbmJumpPrice ⟨100, 0, 0, 10, 1⟩ (fun _ => 0)
            (fun d => if d = 1 then 0 else 1) (fun _ => 0) 10 =
          100 * Real.exp (-(1 / 20)) := hval 9
    rw [h10]
    simp [sortAsc, List.insertionSort, List.orderedInsert]
  rw [hfp]
  intro h
  simp only [List.cons.injEq, and_true] at h
  have he : Real.exp (-(1 / 20)) = 1 := by linarith
  rw [Real.exp_eq_one_iff] at he
  norm_num at he

end Enhanced

namespace MonteCarlo

/-- With currentPrice 0 every simulated price is 0: the zero propagates
through every multiplicative step. -/
theorem gbmPrice_zero_price (p : SimulationParams) (Z : ℕ → ℝ)
    (hcp : p.currentPrice = 0) : ∀ d : ℕ, gbmPrice p Z d = 0 := by
  intro d
  induction d with
  | zero => simpa [gbmPrice] using hcp
  | succ d ih =>
      have hstep : gbmPrice p Z (d + 1) =
          gbmPrice p Z d * Real.exp (drift p + diffusion p * Z (d + 1)) := by
        simp only [gbmPrice]
      rw [hstep, ih, zero_mul]

/-- Claim C6 (amended): the simulation entry point performs no parameter
validation and never rejects: with currentPrice = 0 (an invalid input by the
spec) it runs the whole simulation and returns all-zero final prices, and
with timeHorizon = 0 it returns single-point paths.  There is no error path
in the source. -/
theorem C6_no_validation (p : SimulationParams) (Z : ℕ → ℕ → ℝ) :
    (p.currentPrice = 0 →
        (runMonteCarloSimulation p Z).finalPrices =
          List.replicate p.numSimulations 0) ∧
      (p.timeHorizon = 0 →
        (runMonteCarloSimulation p Z).paths =
          List.replicate p.numSimulations [p.currentPrice]) := by
  constructor
  · intro hcp
    rw [runMC_finalPrices]
    have hraw : finalPricesRaw p Z = List.replicate p.numSimulations 0 := by
      unfold finalPricesRaw
      rw [show (fun s => gbmPrice p (Z s) p.timeHorizon) = fun _ : ℕ => (0 : ℝ) from
        funext fun s => gbmPrice_zero_price p (Z s) hcp p.timeHorizon]
      rw [List.map_const', List.length_range]
    rw [hraw]
    unfold sortAsc
    exact List.Sorted.insertionSort_eq
      (List.pairwise_replicate.mpr (Or.inr (le_refl (0 : ℝ))))
  · intro hth
    rw [runMC_paths]
    have hpath : ∀ s : ℕ, simPath p (Z s) = [p.currentPrice] := by
      intro s
      unfold simPath
      rw [hth, show List.range 1 = [0] from rfl]
      simp [gbmPrice]
    rw [show (fun s => simPath p (Z s)) = fun _ : ℕ => [p.currentPrice] from
      funext hpath]
    rw [List.map_const', List.length_range]

theorem C6_no_validation_witness :
    ((⟨0, 1, 1, 2, 2⟩ : SimulationParams).currentPrice = 0 ∧
        (runMonteCarloSimulation ⟨0, 1, 1, 2, 2⟩ (fun _ _ => 0)).finalPrices =
          List.replicate 2 0) ∧
      ((⟨5, 1, 1, 0, 3⟩ : SimulationParams).timeHorizon = 0 ∧
        (runMonteCarloSimulation ⟨5, 1, 1, 0, 3⟩ (fun _ _ => 0)).paths =
          List.replicate 3 [(5 : ℝ)]) :=
  ⟨⟨rfl, (C6_no_validation ⟨0, 1, 1, 2, 2⟩ (fun _ _ => 0)).1 rfl⟩,
    ⟨rfl, (C6_no_validation ⟨5, 1, 1, 0, 3⟩ (fun _ _ => 0)).2 rfl⟩⟩

/-- Claim C6 (counterexample): at the invalid parameter set currentPrice = 0,
timeHorizon = 1, runMonteCarloSimulation does not reject: it returns a fully
populated result (one complete two-point path and a final price), so the
claimed immediate invalid-parameter rejection does not exist in the code. -/
theorem C6_counterexample :
    (runMonteCarloSimulation ⟨0, 0, 0, 1, 1⟩ (fun _ _ => 0)).paths = [[0, 0]] ∧
      (runMonteCarloSimulation ⟨0, 0, 0, 1, 1⟩ (fun _ _ => 0)).finalPrices = [0] := by
  constructor
  · rw [runMC_paths]
    rw [show List.range (SimulationParams.numSimulations ⟨0, 0, 0, 1, 1⟩) = [0] from rfl]
    simp only [List.map_cons, List.map_nil]
    have hpath : simPath ⟨0, 0, 0, 1, 1⟩ (fun _ => 0) = [0, 0] := by
      unfold simPath
      rw [show List.range (SimulationParams.timeHorizon ⟨0, 0, 0, 1, 1⟩ + 1) = [0, 1]
        from rfl]
      simp [gbmPrice]
    rw [hpath]
  · rw [runMC_finalPrices]
    have hraw : finalPricesRaw ⟨0, 0, 0, 1, 1⟩ (fun _ _ => 0) = [(0 : ℝ)] := by
      unfold finalPricesRaw
      rw [show List.range (SimulationParams.numSimulations ⟨0, 0, 0, 1, 1⟩) = [0] from rfl]
      simp [gbmPrice]
    rw [hraw]
    simp [sortAsc, List.insertionSort, List.orderedInsert]

theorem calculateRiskMetrics_expectedShortfall (fp : List ℝ) (cp conf : ℝ) :
    (calculateRiskMetrics fp cp conf).expectedShortfall =
      ((fp.map (fun price => (price - cp) / cp)).take
          (Int.toNat ⌊((sortAsc fp).length : ℝ) * conf⌋ + 1)).sum /
        (((fp.map (fun price => (price - cp) / cp)).take
            (Int.toNat ⌊((sortAsc fp).length : ℝ) * conf⌋ + 1)).length : ℝ) := rfl

/-- Claim C5 (amended): calculateRiskMetrics computes expectedShortfall as
the mean of the first floor(confidence·N)+1 fractional returns in the order
finalValues was supplied; for ascending-sorted input (as produced by
runMonteCarloSimulation) this equals the mean of the floor(confidence·N)+1
smallest returns — the claim's formula — but not for unsorted input (see the
counterexample); runPortfolioSimulation instead computes initialValue minus
the mean of the floor(0.05·N) smallest final values, an absolute (not
fractional) quantity over one fewer element. -/
theorem C5_cvar_sorted_input (fp : List ℝ) (cp conf : ℝ)
    (hs : List.Sorted (· ≤ ·) fp) (hcp : 0 < cp) :
    (calculateRiskMetrics fp cp conf).expectedShortfall = cvarSpec fp cp conf ∧
      ∀ (fv : List ℝ) (iv : ℝ) (paths : List (List ℝ)),
        (Portfolio.portfolioRiskMetrics fv iv paths).expectedShortfall =
          iv - ((sortAsc fv).take (Int.toNat ⌊0.05 * (fv.length : ℝ)⌋)).sum /
            ((Int.toNat ⌊0.05 * (fv.length : ℝ)⌋ : ℕ) : ℝ) := by
  constructor
  · have hmono : List.Sorted (· ≤ ·) (fp.map (fun v => (v - cp) / cp)) :=
      List.Pairwise.map _ (fun a b hab => (div_le_div_right hcp).mpr (by linarith)) hs
    have hsorteq :
        sortAsc (fp.map (fun v => (v - cp) / cp)) = fp.map (fun v => (v - cp) / cp) := by
      unfold sortAsc
      exact List.Sorted.insertionSort_eq hmono
    rw [calculateRiskMetrics_expectedShortfall]
    unfold cvarSpec
    rw [hsorteq, sortAsc_length_real, mul_comm ((fp.length : ℝ)) conf]
  · intro fv iv paths
    rfl

theorem C5_cvar_sorted_input_witness :
    (List.Sorted (· ≤ ·) [(50 : ℝ), 200] ∧ (0 : ℝ) < 100) ∧
      (calculateRiskMetrics [50, 200] 100 (1 / 20)).expectedShortfall =
        cvarSpec [50, 200] 100 (1 / 20) :=
  ⟨⟨by norm_num [List.sorted_cons], by norm_num⟩,
    (C5_cvar_sorted_input [50, 200] 100 (1 / 20)
        (by norm_num [List.sorted_cons]) (by norm_num)).1⟩

/-- Claim C5 (counterexample): on the unsorted input [200, 50] with initial
value 100 and confidence 1/20, calculateRiskMetrics takes the first
fractional return (+1.0, from the 200 entry supplied first) as the expected
shortfall, while the mean of the floor(confidence·N)+1 = 1 smallest
fractional returns is −1/2 — the order in which finalValues is supplied
changes the result. -/
theorem C5_counterexample :
    (calculateRiskMetrics [200, 50] 100 (1 / 20)).expectedShortfall ≠
      cvarSpec [200, 50] 100 (1 / 20) := by
  have hsort1 : sortAsc [(200 : ℝ), 50] = [50, 200] := by
    norm_num [sortAsc, List.insertionSort, List.orderedInsert]
  have hmap : [(200 : ℝ), 50].map (fun price => (price - 100) / 100) = [1, -(1 / 2)] := by
    norm_num
  have hsort2 : sortAsc [(1 : ℝ), -(1 / 2)] = [-(1 / 2), 1] := by
    norm_num [sortAsc, List.insertionSort, List.orderedInsert]
  have hfloor : Int.toNat ⌊((2 : ℕ) : ℝ) * (1 / 20)⌋ = 0 := by
    norm_num [Int.floor_eq_zero_iff, Set.mem_Ico]
  have hfloor2 : Int.toNat ⌊(1 / 20 : ℝ) * ((2 : ℕ) : ℝ)⌋ = 0 := by
    norm_num [Int.floor_eq_zero_iff, Set.mem_Ico]
  rw [calculateRiskMetrics_expectedShortfall]
  unfold cvarSpec
  rw [hmap, hsort1, hsort2]
  norm_num [hfloor, hfloor2]

end MonteCarlo

namespace Portfolio

theorem cholRows_succ (A : List (List ℝ)) (i : ℕ) :
    cholRows A (i + 1) = cholRows A i ++ [cholRowBuild A (cholRows A i) i] := by
  simp only [cholRows]

theorem cholRows_length (A : List (List ℝ)) : ∀ n : ℕ, (cholRows A n).length = n := by
  intro n
  induction n with
  | zero => rfl
  | succ n ih =>
      rw [cholRows_succ, List.length_append, ih]
      rfl

/-- Claim C7 (amended): the correlated-simulation code signals no error at
all: choleskyDecomposition is a total function returning one row per input
row, and generateCorrelatedRandoms consumes the factor without any check —
for a non-PSD correlation matrix the diagonal square root of a negative
number silently yields NaN in JavaScript (0 under the real idealisation)
and the resulting factor does not reproduce the input (see the
counterexample); there is no InvalidCorrelationMatrix error path in the
source. -/
theorem C7_no_error_signaling :
    (∀ A : List (List ℝ), (choleskyDecomposition A).length = A.length) ∧
      ∀ (n : ℕ) (M : List (List ℝ)) (u : List ℝ),
        (generateCorrelatedRandoms n M u).length = n := by
  constructor
  · intro A
    exact cholRows_length A A.length
  · intro n M u
    unfold generateCorrelatedRandoms
    rw [List.length_map, List.length_range]

/-- Claim C7 (counterexample): the non-positive-semi-definite matrix
[[1,2],[2,1]] is not rejected: choleskyDecomposition silently returns
[[1,0],[2,0]] (the JavaScript run places NaN where the real idealisation
places 0, since sqrt(1−4) is taken), whose product L·Lᵀ = [[1,2],[2,4]]
differs from the input, and generateCorrelatedRandoms happily transforms
draws with it instead of signaling InvalidCorrelationMatrix. -/
theorem C7_counterexample :
    choleskyDecomposition [[1, 2], [2, 1]] = [[1, 0], [2, 0]] ∧
      matTimesTranspose (choleskyDecomposition [[1, 2], [2, 1]]) ≠ [[1, 2], [2, 1]] ∧
      generateCorrelatedRandoms 2 [[1, 2], [2, 1]] [1, 1] = [1, 2] := by
  have hrow0 : cholRowBuild [[1, 2], [2, 1]] [] 0 = [1, 0] := by
    unfold cholRowBuild
    norm_num [mget, Real.sqrt_one]
  have hrow1 : cholRowBuild [[1, 2], [2, 1]] [[1, 0]] 1 = [2, 0] := by
    unfold cholRowBuild cholEntryOff
    rw [show List.range 1 = [0] from rfl]
    have hneg : Real.sqrt (-3 : ℝ) = 0 := Real.sqrt_eq_zero'.mpr (by norm_num)
    norm_num [mget, hneg]
  have h1 : cholRows [[1, 2], [2, 1]] 1 = [[1, 0]] := by
    rw [show (1 : ℕ) = 0 + 1 from rfl, cholRows_succ]
    rw [show cholRows [[1, 2], [2, 1]] 0 = [] from rfl, hrow0]
    rfl
  have h2 : cholRows [[1, 2], [2, 1]] 2 = [[1, 0], [2, 0]] := by
    rw [show (2 : ℕ) = 1 + 1 from rfl, cholRows_succ, h1, hrow1]
    rfl
  have hchol : choleskyDecomposition [[1, 2], [2, 1]] = [[1, 0], [2, 0]] := by
    unfold choleskyDecomposition
    rw [show ([[1, 2], [2, 1]] : List (List ℝ)).length = 2 from rfl]
    exact h2
  refine ⟨hchol, ?_, ?_⟩
  · rw [hchol]
    intro h
    have h11 : ((matTimesTranspose [[1, 0], [2, 0]]).getD 1 []).getD 1 0 =
        (([[1, 2], [2, 1]] : List (List ℝ)).getD 1 []).getD 1 0 := by rw [h]
    norm_num [matTimesTranspose, List.getD_cons_zero, List.getD_cons_succ] at h11
  · unfold generateCorrelatedRandoms
    rw [hchol, show List.range 2 = [0, 1] from rfl]
    norm_num [mget, List.getD_cons_zero, List.getD_cons_succ, List.range_succ]

end Portfolio

/-- Claim C8 (amended): the RiskManager metrics guard their zero
denominators and return the sentinel 0 — a zero annualized volatility makes
calculateSharpeRatio return 0, and an empty set of downside returns makes
calculateSortino return 0 — but the sharpeRatio of calculateRiskMetrics in
monteCarlo.ts divides unguarded, so a degenerate return series produces
±Infinity, and NaN when the mean return equals the hard-coded 0.03 risk-free
rate exactly (see the counterexample). -/
theorem C8_riskmanager_sentinels (returns : List ℝ)
    (riskFreeRate periods targetReturn : ℝ) :
    (RiskManager.calculateVolatility returns periods = 0 →
        RiskManager.calculateSharpeRatio returns riskFreeRate periods = 0) ∧
      ((∀ r ∈ returns, ¬ r < targetReturn) →
        RiskManager.calculateSortino returns targetReturn periods = 0) := by
  constructor
  · intro hvol
    unfold RiskManager.calculateSharpeRatio
    rw [hvol]
    simp
  · intro hnone
    unfold RiskManager.calculateSortino
    have hfilter : returns.filter (fun ret => decide (ret < targetReturn)) = [] :=
      List.filter_eq_nil_iff.mpr (fun a ha => by simpa using hnone a ha)
    rw [hfilter]
    simp

theorem C8_riskmanager_sentinels_witness :
    (RiskManager.calculateVolatility [1 / 100, 1 / 100] 252 = 0 ∧
        RiskManager.calculateSharpeRatio [1 / 100, 1 / 100] 0.02 252 = 0) ∧
      ((∀ r ∈ [(1 : ℝ) / 100], ¬ r < 0) ∧
        RiskManager.calculateSortino [(1 : ℝ) / 100] 0 252 = 0) := by
  have hvol : RiskManager.calculateVolatility [1 / 100, 1 / 100] 252 = 0 := by
    unfold RiskManager.calculateVolatility
    norm_num [Real.sqrt_zero]
  have hmem : ∀ r ∈ [(1 : ℝ) / 100], ¬ r < 0 := by
    intro r hr
    rw [List.mem_singleton] at hr
    subst hr
    norm_num
  exact ⟨⟨hvol, (C8_riskmanager_sentinels [1 / 100, 1 / 100] 0.02 252 0).1 hvol⟩,
    ⟨hmem, (C8_riskmanager_sentinels [(1 : ℝ) / 100] 0.02 252 0).2 hmem⟩⟩

/-- Claim C8 (counterexample): the sharpeRatio computed by
calculateRiskMetrics is not guarded: for finalPrices [103, 103] with
currentPrice 100 every return is exactly 0.03, the return standard deviation
is 0, and the IEEE division (0.03 − 0.03)/0 = 0/0 produces NaN — not the
claimed well-defined sentinel (0 or ±∞), and the NaN propagates into the
returned metrics. -/
theorem C8_counterexample :
    MonteCarlo.sharpeRatioIEEE [103, 103] 100 = JsNum.nan ∧
      (∀ x : ℝ, JsNum.nan ≠ JsNum.val x) ∧
      JsNum.nan ≠ JsNum.posInf ∧ JsNum.nan ≠ JsNum.negInf := by
  refine ⟨?_, fun x h => JsNum.noConfusion h, fun h => JsNum.noConfusion h,
    fun h => JsNum.noConfusion h⟩
  unfold MonteCarlo.sharpeRatioIEEE
  norm_num [jsDivFinite, Real.sqrt_zero]

namespace OptionsCalculator

/-- Sign symmetry of the Abramowitz-Stegun CDF approximation: for nonzero
arguments the two branches share the same `y`, so the values at `x` and `-x`
sum to exactly 1.  (At `x = 0` both calls take the positive branch and the
sum is `1 + 10⁻⁹` instead, because the five coefficients sum to
0.999999999.) -/
theorem normCDF_add_neg (x : ℝ) (hx : x ≠ 0) : normCDF x + normCDF (-x) = 1 := by
  rcases lt_or_gt_of_ne hx with h | h
  · simp only [normCDF]
    rw [if_pos h, if_neg (not_lt.mpr (le_of_lt (neg_pos.mpr h))), abs_neg]
    ring
  · simp only [normCDF]
    rw [if_neg (not_lt.mpr (le_of_lt h)), if_pos (neg_lt_zero.mpr h), abs_neg]
    ring

/-- At 0 the approximation returns `0.5·(1 + 10⁻⁹)`, not 0.5: the source's
coefficients a1+a2+a3+a4+a5 = 0.999999999. -/
theorem normCDF_zero : normCDF 0 = 0.5 * (1 + 1 / 1000000000) := by
  simp only [normCDF, erfPoly]
  norm_num [Real.exp_zero]

theorem normCDF_neg_eval (x : ℝ) (hx : 0 < x) :
    normCDF (-x) =
      0.5 * (erfPoly (1 / (1 + 0.3275911 * (x / Real.sqrt 2))) *
        (1 / (1 + 0.3275911 * (x / Real.sqrt 2))) *
        Real.exp (-(x / Real.sqrt 2) * (x / Real.sqrt 2))) := by
  simp only [normCDF]
  rw [if_pos (neg_lt_zero.mpr hx), abs_neg, abs_of_pos hx]
  ring

theorem sqrt_two_bounds : (1.414213 : ℝ) < Real.sqrt 2 ∧ Real.sqrt 2 < 1.414214 :=
  ⟨(Real.lt_sqrt (by norm_num)).mpr (by norm_num),
    (Real.sqrt_lt' (by norm_num)).mpr (by norm_num)⟩

/-- Interval bound for the polynomial factor at the argument used by the
parity counterexample (`t ≈ 0.8962`). -/
theorem erfPoly_mul_bounds_ce (t : ℝ) (h1 : (0.896 : ℝ) ≤ t) (h2 : t ≤ 0.8963) :
    0 ≤ erfPoly t * t ∧ erfPoly t * t ≤ 1 := by
  have ht0 : (0 : ℝ) ≤ t := le_trans (by norm_num) h1
  have p2l := pow_le_pow_left (show (0 : ℝ) ≤ 0.896 by norm_num) h1 2
  have p2u := pow_le_pow_left ht0 h2 2
  have p3l := pow_le_pow_left (show (0 : ℝ) ≤ 0.896 by norm_num) h1 3
  have p3u := pow_le_pow_left ht0 h2 3
  have p4l := pow_le_pow_left (show (0 : ℝ) ≤ 0.896 by norm_num) h1 4
  have p4u := pow_le_pow_left ht0 h2 4
  have p5l := pow_le_pow_left (show (0 : ℝ) ≤ 0.896 by norm_num) h1 5
  have p5u := pow_le_pow_left ht0 h2 5
  unfold erfPoly
  constructor
  · nlinarith [p2l, p2u, p3l, p3u, p4l, p4u, p5l, p5u]
  · nlinarith [p2l, p2u, p3l, p3u, p4l, p4u, p5l, p5u]

/-- Interval bound for the polynomial factor at the argument used by the
parity witness (`t ≈ 0.94526`). -/
theorem erfPoly_mul_le_one_w (t : ℝ) (h1 : (0.9452 : ℝ) ≤ t) (h2 : t ≤ 0.9453) :
    erfPoly t * t ≤ 1 := by
  have ht0 : (0 : ℝ) ≤ t := le_trans (by norm_num) h1
  have p2l := pow_le_pow_left (show (0 : ℝ) ≤ 0.9452 by norm_num) h1 2
  have p2u := pow_le_pow_left ht0 h2 2
  have p3l := pow_le_pow_left (show (0 : ℝ) ≤ 0.9452 by norm_num) h1 3
  have p3u := pow_le_pow_left ht0 h2 3
  have p4l := pow_le_pow_left (show (0 : ℝ) ≤ 0.9452 by norm_num) h1 4
  have p4u := pow_le_pow_left ht0 h2 4
  have p5l := pow_le_pow_left (show (0 : ℝ) ≤ 0.9452 by norm_num) h1 5
  have p5u := pow_le_pow_left ht0 h2 5
  unfold erfPoly
  nlinarith [p2l, p2u, p3l, p3u, p4l, p4u, p5l, p5u]

theorem tval_ce_bounds :
    (0.896 : ℝ) ≤ 1 / (1 + 0.3275911 * (1 / 2 / Real.sqrt 2)) ∧
      1 / (1 + 0.3275911 * (1 / 2 / Real.sqrt 2)) ≤ 0.8963 := by
  obtain ⟨hs1, hs2⟩ := sqrt_two_bounds
  have hs0 : (0 : ℝ) < Real.sqrt 2 := lt_trans (by norm_num) hs1
  have hx1 : (0.353553 : ℝ) ≤ 1 / 2 / Real.sqrt 2 := by
    rw [le_div_iff hs0]
    nlinarith
  have hx2 : (1 : ℝ) / 2 / Real.sqrt 2 ≤ 0.353554 := by
    rw [div_le_iff hs0]
    nlinarith
  have hq1 : (1.11581 : ℝ) ≤ 1 + 0.3275911 * (1 / 2 / Real.sqrt 2) := by nlinarith
  have hq2 : 1 + 0.3275911 * (1 / 2 / Real.sqrt 2) ≤ 1.11583 := by nlinarith
  constructor
  · calc (0.896 : ℝ) ≤ 1 / 1.11583 := by norm_num
      _ ≤ 1 / (1 + 0.3275911 * (1 / 2 / Real.sqrt 2)) :=
        one_div_le_one_div_of_le (by nlinarith) hq2
  · calc 1 / (1 + 0.3275911 * (1 / 2 / Real.sqrt 2)) ≤ 1 / 1.11581 :=
        one_div_le_one_div_of_le (by norm_num) hq1
      _ ≤ 0.8963 := by norm_num

theorem tval_w_bounds :
    (0.9452 : ℝ) ≤ 1 / (1 + 0.3275911 * (1 / 4 / Real.sqrt 2)) ∧
      1 / (1 + 0.3275911 * (1 / 4 / Real.sqrt 2)) ≤ 0.9453 := by
  obtain ⟨hs1, hs2⟩ := sqrt_two_bounds
  have hs0 : (0 : ℝ) < Real.sqrt 2 := lt_trans (by norm_num) hs1
  have hx1 : (0.176776 : ℝ) ≤ 1 / 4 / Real.sqrt 2 := by
    rw [le_div_iff hs0]
    nlinarith
  have hx2 : (1 : ℝ) / 4 / Real.sqrt 2 ≤ 0.176778 := by
    rw [div_le_iff hs0]
    nlinarith
  have hq1 : (1.05791 : ℝ) ≤ 1 + 0.3275911 * (1 / 4 / Real.sqrt 2) := by nlinarith
  have hq2 : 1 + 0.3275911 * (1 / 4 / Real.sqrt 2) ≤ 1.057912 := by nlinarith
  constructor
  · calc (0.9452 : ℝ) ≤ 1 / 1.057912 := by norm_num
      _ ≤ 1 / (1 + 0.3275911 * (1 / 4 / Real.sqrt 2)) :=
        one_div_le_one_div_of_le (by nlinarith) hq2
  · calc 1 / (1 + 0.3275911 * (1 / 4 / Real.sqrt 2)) ≤ 1 / 1.05791 :=
        one_div_le_one_div_of_le (by norm_num) hq1
      _ ≤ 0.9453 := by norm_num

theorem exp_eighth_bounds :
    (7 / 8 : ℝ) ≤ Real.exp (-(1 / 8)) ∧ Real.exp (-(1 / 8) : ℝ) ≤ 8 / 9 := by
  constructor
  · have h := Real.add_one_le_exp (-(1 / 8) : ℝ)
    linarith
  · have h := Real.add_one_le_exp (1 / 8 : ℝ)
    have h98 : (9 : ℝ) / 8 ≤ Real.exp (1 / 8) := by linarith
    rw [Real.exp_neg]
    calc (Real.exp (1 / 8))⁻¹ ≤ ((9 : ℝ) / 8)⁻¹ :=
        inv_le_inv_of_le (by norm_num) h98
      _ = 8 / 9 := by norm_num

/-- Claim C3 (amended): put-call parity holds exactly — hence within 1e-6 —
for every parameter set for which the formula branch runs (timeToExpiry > 0),
both d1 and d2 are nonzero, and neither computed price is negative (so the
final clamp to ≥ 0 returns the computed prices unchanged); when d1 or d2 is
exactly 0 the coefficient defect of the A&S approximation (its coefficients
sum to 0.999999999) breaks parity by spot·e^{−qT}·10⁻⁹ or
strike·e^{−rT}·10⁻⁹, which exceeds 1e-6 for prices above about 1133 (see the
counterexample). -/
theorem C3_parity_exact (p : OptionParameters) (hT : 0 < p.timeToExpiry)
    (h1 : d1 p ≠ 0) (h2 : d2 p ≠ 0)
    (hc : 0 ≤ callPrice p) (hq : 0 ≤ putPrice p) :
    (blackScholes p).call - (blackScholes p).put =
      p.spot * Real.exp (-p.dividendYield * p.timeToExpiry) -
        p.strike * Real.exp (-p.riskFreeRate * p.timeToExpiry) := by
  have hbs : blackScholes p = ⟨max (callPrice p) 0, max (putPrice p) 0⟩ := by
    unfold blackScholes
    rw [if_neg (not_le.mpr hT)]
  rw [hbs]
  show max (callPrice p) 0 - max (putPrice p) 0 = _
  rw [max_eq_left hc, max_eq_left hq]
  have e1 := normCDF_add_neg (d1 p) h1
  have e2 := normCDF_add_neg (d2 p) h2
  unfold callPrice putPrice
  linear_combination (p.spot * Real.exp (-p.dividendYield * p.timeToExpiry)) * e1 -
    (p.strike * Real.exp (-p.riskFreeRate * p.timeToExpiry)) * e2

theorem c3w_d1 : d1 ⟨100, 100, 1, 0, 0.5, 0⟩ = 1 / 4 := by
  unfold d1
  norm_num [Real.log_one, Real.sqrt_one]

theorem c3w_d2 : d2 ⟨100, 100, 1, 0, 0.5, 0⟩ = -(1 / 4) := by
  unfold d2
  rw [c3w_d1]
  norm_num [Real.sqrt_one]

theorem c3w_nonneg :
    0 ≤ callPrice ⟨100, 100, 1, 0, 0.5, 0⟩ ∧ 0 ≤ putPrice ⟨100, 100, 1, 0, 0.5, 0⟩ := by
  obtain ⟨ht1, ht2⟩ := tval_w_bounds
  have hP := erfPoly_mul_le_one_w _ ht1 ht2
  have hEpos : (0 : ℝ) < Real.exp (-(1 / 32)) := Real.exp_pos _
  have hEle : Real.exp (-(1 / 32) : ℝ) ≤ 1 := Real.exp_le_one_iff.mpr (by norm_num)
  have hsq : ((1 : ℝ) / 4 / Real.sqrt 2) * (1 / 4 / Real.sqrt 2) = 1 / 32 := by
    rw [div_mul_div_comm, Real.mul_self_sqrt (by norm_num : (0 : ℝ) ≤ 2)]
    norm_num
  have hneg : normCDF (-(1 / 4) : ℝ) =
      0.5 * (erfPoly (1 / (1 + 0.3275911 * (1 / 4 / Real.sqrt 2))) *
        (1 / (1 + 0.3275911 * (1 / 4 / Real.sqrt 2))) * Real.exp (-(1 / 32))) := by
    rw [normCDF_neg_eval (1 / 4) (by norm_num)]
    rw [show (-((1 : ℝ) / 4 / Real.sqrt 2) * (1 / 4 / Real.sqrt 2)) = -(1 / 32) from by
      rw [neg_mul, hsq]]
  have hsum := normCDF_add_neg (1 / 4 : ℝ) (by norm_num)
  have hcall : callPrice ⟨100, 100, 1, 0, 0.5, 0⟩ =
      100 * normCDF (1 / 4) - 100 * normCDF (-(1 / 4)) := by
    unfold callPrice
    rw [c3w_d1, c3w_d2]
    norm_num [Real.exp_zero]
  have hput : putPrice ⟨100, 100, 1, 0, 0.5, 0⟩ =
      100 * normCDF (1 / 4) - 100 * normCDF (-(1 / 4)) := by
    unfold putPrice
    rw [c3w_d1, c3w_d2]
    norm_num [Real.exp_zero]
  rw [hneg] at hsum
  constructor
  · rw [hcall]
    nlinarith [hsum, hP, hEpos, hEle]
  · rw [hput]
    nlinarith [hsum, hP, hEpos, hEle]

theorem C3_parity_exact_witness :
    ((0 : ℝ) < (⟨100, 100, 1, 0, 0.5, 0⟩ : OptionParameters).timeToExpiry ∧
        d1 ⟨100, 100, 1, 0, 0.5, 0⟩ ≠ 0 ∧ d2 ⟨100, 100, 1, 0, 0.5, 0⟩ ≠ 0 ∧
        0 ≤ callPrice ⟨100, 100, 1, 0, 0.5, 0⟩ ∧
        0 ≤ putPrice ⟨100, 100, 1, 0, 0.5, 0⟩) ∧
      (blackScholes ⟨100, 100, 1, 0, 0.5, 0⟩).call -
          (blackScholes ⟨100, 100, 1, 0, 0.5, 0⟩).put =
        100 * Real.exp (-(0 : ℝ) * 1) - 100 * Real.exp (-(0 : ℝ) * 1) := by
  have h1 : d1 ⟨100, 100, 1, 0, 0.5, 0⟩ ≠ 0 := by
    rw [c3w_d1]
    norm_num
  have h2 : d2 ⟨100, 100, 1, 0, 0.5, 0⟩ ≠ 0 := by
    rw [c3w_d2]
    norm_num
  obtain ⟨hc, hq⟩ := c3w_nonneg
  exact ⟨⟨by norm_num, h1, h2, hc, hq⟩,
    C3_parity_exact ⟨100, 100, 1, 0, 0.5, 0⟩ (by norm_num) h1 h2 hc hq⟩

/-- Claim C3 (counterexample): at the valid parameters spot = strike = 2000,
T = 1, r = 0, σ = 0.5, q = 0.125 the formula places d1 exactly at 0, where
normCDF(0) + normCDF(−0) = 1 + 10⁻⁹ rather than 1 (the A&S coefficients sum
to 0.999999999), so call − put differs from spot·e^{−qT} − strike·e^{−rT} by
2000·e^{−1/8}·10⁻⁹ ≈ 1.77·10⁻⁶ > 10⁻⁶: put-call parity fails the claimed
1e-6 tolerance. -/
theorem C3_counterexample :
    ¬ (|((blackScholes ⟨2000, 2000, 1, 0, 0.5, 0.125⟩).call -
          (blackScholes ⟨2000, 2000, 1, 0, 0.5, 0.125⟩).put) -
        (2000 * Real.exp (-(0.125 : ℝ) * 1) - 2000 * Real.exp (-(0 : ℝ) * 1))| ≤
      1e-6) := by
  have hd1 : d1 ⟨2000, 2000, 1, 0, 0.5, 0.125⟩ = 0 := by
    unfold d1
    norm_num [Real.log_one, Real.sqrt_one]
  have hd2 : d2 ⟨2000, 2000, 1, 0, 0.5, 0.125⟩ = -(1 / 2) := by
    unfold d2
    rw [hd1]
    norm_num [Real.sqrt_one]
  obtain ⟨ht1, ht2⟩ := tval_ce_bounds
  obtain ⟨hP0, hP1⟩ := erfPoly_mul_bounds_ce _ ht1 ht2
  obtain ⟨hE1, hE2⟩ := exp_eighth_bounds
  have hEpos : (0 : ℝ) < Real.exp (-(1 / 8)) := Real.exp_pos _
  have hsq : ((1 : ℝ) / 2 / Real.sqrt 2) * (1 / 2 / Real.sqrt 2) = 1 / 8 := by
    rw [div_mul_div_comm, Real.mul_self_sqrt (by norm_num : (0 : ℝ) ≤ 2)]
    norm_num
  have hPhiNeg : normCDF (-(1 / 2) : ℝ) =
      0.5 * (erfPoly (1 / (1 + 0.3275911 * (1 / 2 / Real.sqrt 2))) *
        (1 / (1 + 0.3275911 * (1 / 2 / Real.sqrt 2))) * Real.exp (-(1 / 8))) := by
    rw [normCDF_neg_eval (1 / 2) (by norm_num)]
    rw [show (-((1 : ℝ) / 2 / Real.sqrt 2) * (1 / 2 / Real.sqrt 2)) = -(1 / 8) from by
      rw [neg_mul, hsq]]
  have hsumHalf := normCDF_add_neg (1 / 2 : ℝ) (by norm_num)
  have hPhiPos : normCDF ((1 : ℝ) / 2) = 1 - normCDF (-(1 / 2)) := by
    linarith [hsumHalf]
  have hcall : callPrice ⟨2000, 2000, 1, 0, 0.5, 0.125⟩ =
      2000 * Real.exp (-(1 / 8)) * normCDF 0 - 2000 * normCDF (-(1 / 2)) := by
    unfold callPrice
    rw [hd1, hd2]
    norm_num [Real.exp_zero]
  have hput : putPrice ⟨2000, 2000, 1, 0, 0.5, 0.125⟩ =
      2000 * normCDF (1 / 2) - 2000 * Real.exp (-(1 / 8)) * normCDF 0 := by
    unfold putPrice
    rw [hd1, hd2]
    norm_num [Real.exp_zero]
  have hc0 : 0 ≤ callPrice ⟨2000, 2000, 1, 0, 0.5, 0.125⟩ := by
    rw [hcall, normCDF_zero, hPhiNeg]
    nlinarith [hP1, hEpos]
  have hp0 : 0 ≤ putPrice ⟨2000, 2000, 1, 0, 0.5, 0.125⟩ := by
    rw [hput, normCDF_zero, hPhiPos, hPhiNeg]
    nlinarith [hP0, hP1, hE2, hEpos]
  have hbs : blackScholes ⟨2000, 2000, 1, 0, 0.5, 0.125⟩ =
      ⟨callPrice ⟨2000, 2000, 1, 0, 0.5, 0.125⟩,
        putPrice ⟨2000, 2000, 1, 0, 0.5, 0.125⟩⟩ := by
    unfold blackScholes
    rw [if_neg (show
      ¬ ((⟨2000, 2000, 1, 0, 0.5, 0.125⟩ : OptionParameters).timeToExpiry ≤ 0) from by
        norm_num)]
    rw [max_eq_left hc0, max_eq_left hp0]
  intro habs
  rw [hbs] at habs
  have hkey : callPrice ⟨2000, 2000, 1, 0, 0.5, 0.125⟩ -
      putPrice ⟨2000, 2000, 1, 0, 0.5, 0.125⟩ -
      (2000 * Real.exp (-(0.125 : ℝ) * 1) - 2000 * Real.exp (-(0 : ℝ) * 1)) =
      2000 * Real.exp (-(1 / 8)) * (1 / 1000000000) := by
    rw [hcall, hput, normCDF_zero, hPhiPos]
    rw [show Real.exp (-(0.125 : ℝ) * 1) = Real.exp (-(1 / 8)) from by norm_num]
    rw [show Real.exp (-(0 : ℝ) * 1) = 1 from by norm_num [Real.exp_zero]]
    ring
  simp only at habs
  rw [hkey] at habs
  rw [abs_of_pos (by positivity)] at habs
  nlinarith [hE1, habs]

end OptionsCalculator

end MonteCanvas
